import Mathlib

/-!
Verification of the warehouse box-tracking API (location/move ledger).

The definitions below are a shallow embedding of the repository's three
source files:

* `location_utils.py` — the Location Store, with a local SQLite backend
  (tables `boxid_log`, `box_move_log`) and a networked Postgres backend
  (tables `boxes`/configurable, `move_log`);
* `mobile_api.py` — the range/bulk resolver (`move_by_range`, `move_bulk`),
  the query surface (`boxes_search`), and the identifier codec
  (`prefix_from_boxid`);
* `db.py` — the schema (shapes of the rows used by the model).

SQL fragments are embedded with SQLite semantics (the local backend), since
every query in `mobile_api.py` is written in SQLite dialect (`rowid`,
`substr(X,-4)`, `CAST`): `LIKE` is ASCII-case-insensitive with `%`/`_`
wildcards, `CAST(text AS INTEGER)` takes the longest signed digit prefix
(0 when there is none), text comparison is code-point order.
-/

/-- SQLite `LIKE` folds ASCII upper-case letters onto lower case. -/
def foldChar (c : Char) : Char :=
  if 'A' ≤ c ∧ c ≤ 'Z' then Char.ofNat (c.toNat + 32) else c

/-- SQLite `LIKE` pattern matching: `%` matches any sequence, `_` any single
character, other characters match up to ASCII case. -/
def matchLike : List Char → List Char → Bool
  | [], s => s.isEmpty
  | c :: p, s =>
    if c = '%' then s.tails.any (fun t => matchLike p t)
    else if c = '_' then
      match s with
      | [] => false
      | _ :: s2 => matchLike p s2
    else
      match s with
      | [] => false
      | d :: s2 => (foldChar c == foldChar d) && matchLike p s2

/-- Characters skipped by SQLite before parsing a numeric literal. -/
def isSqlSpace (c : Char) : Bool :=
  c == ' ' || c == '\t' || c == '\n' || c == '\r' || c == '\x0b' || c == '\x0c'

/-- Value of the longest leading digit run (0 when there is none). -/
def digitsVal (cs : List Char) : Int :=
  (cs.takeWhile (fun c => c.isDigit)).foldl (fun a c => a * 10 + ((c.toNat : Int) - 48)) 0

/-- SQLite `CAST(text AS INTEGER)`: skip spaces, optional sign, then the
longest digit run; a text with no leading digits casts to 0. -/
def sqliteCastInt (s : String) : Int :=
  match s.data.dropWhile isSqlSpace with
  | '-' :: rest => - digitsVal rest
  | '+' :: rest => digitsVal rest
  | cs => digitsVal cs

/-- SQLite `substr(X, -4)`: the last 4 characters (the whole text when it is
shorter than 4 characters). -/
def last4 (s : String) : String :=
  String.mk ((s.data.reverse.take 4).reverse)

/-- Code-point (SQLite BINARY collation) strict lexicographic order on
character lists, written structurally so that it evaluates by reduction. -/
def charsLt : List Char → List Char → Bool
  | [], [] => false
  | [], _ :: _ => true
  | _ :: _, [] => false
  | a :: as, b :: bs => if a < b then true else if b < a then false else charsLt as bs

/-- SQLite text comparison (`ORDER BY` on a text column). -/
def strLt (a b : String) : Bool := charsLt a.data b.data

theorem charsLt_trans : ∀ (x y z : List Char),
    charsLt x y = true → charsLt y z = true → charsLt x z = true := by
  intro x
  induction x with
  | nil =>
    intro y z h1 h2
    cases y with
    | nil => simp [charsLt] at h1
    | cons b bs =>
      cases z with
      | nil => simp [charsLt] at h2
      | cons c cs => rfl
  | cons a as ih =>
    intro y z h1 h2
    cases y with
    | nil => simp [charsLt] at h1
    | cons b bs =>
      cases z with
      | nil => simp [charsLt] at h2
      | cons c cs =>
        simp only [charsLt] at h1 h2 ⊢
        by_cases hab : a < b
        · by_cases hbc : b < c
          · rw [if_pos (lt_trans hab hbc)]
          · rw [if_neg hbc] at h2
            by_cases hcb : c < b
            · rw [if_pos hcb] at h2
              exact absurd h2 (by simp)
            · have hbc2 : b = c := le_antisymm (not_lt.mp hcb) (not_lt.mp hbc)
              subst hbc2
              rw [if_pos hab]
        · rw [if_neg hab] at h1
          by_cases hba : b < a
          · rw [if_pos hba] at h1
            exact absurd h1 (by simp)
          · have hab2 : a = b := le_antisymm (not_lt.mp hba) (not_lt.mp hab)
            subst hab2
            rw [if_neg (lt_irrefl a)] at h1
            by_cases hac : a < c
            · rw [if_pos hac]
            · rw [if_neg hac] at h2 ⊢
              by_cases hca : c < a
              · rw [if_pos hca] at h2
                exact absurd h2 (by simp)
              · rw [if_neg hca] at h2 ⊢
                exact ih bs cs h1 h2

theorem charsLt_trichot : ∀ (x y : List Char),
    charsLt x y = true ∨ x = y ∨ charsLt y x = true := by
  intro x
  induction x with
  | nil =>
    intro y
    cases y with
    | nil => exact Or.inr (Or.inl rfl)
    | cons b bs => exact Or.inl rfl
  | cons a as ih =>
    intro y
    cases y with
    | nil => exact Or.inr (Or.inr rfl)
    | cons b bs =>
      rcases lt_trichotomy a b with h | h | h
      · exact Or.inl (by simp [charsLt, h])
      · subst h
        rcases ih bs with h2 | h2 | h2
        · exact Or.inl (by simp [charsLt, lt_irrefl, h2])
        · exact Or.inr (Or.inl (by rw [h2]))
        · exact Or.inr (Or.inr (by simp [charsLt, lt_irrefl, h2]))
      · exact Or.inr (Or.inr (by simp [charsLt, h, lt_asymm h]))

theorem strLt_trichot (a b : String) : strLt a b = true ∨ a = b ∨ strLt b a = true := by
  rcases charsLt_trichot a.data b.data with h | h | h
  · exact Or.inl h
  · refine Or.inr (Or.inl ?_)
    cases a
    cases b
    exact congrArg String.mk (by simpa using h)
  · exact Or.inr (Or.inr h)

/-- `mobile_api.prefix_from_boxid`: Python
`boxid.rsplit("-", 1)[0] + "-"` when `"-" in boxid`, else `boxid`. -/
def prefix_from_boxid (boxid : String) : String :=
  if '-' ∈ boxid.data then
    String.mk (((boxid.data.reverse.dropWhile (fun c => c != '-')).tail).reverse ++ ['-'])
  else boxid

/-- Spec-side characterisation (from the spec's words): "everything up to and
including the last separator", computed by a direct right-to-left recursion,
independent of the `rsplit`-style definition above. -/
def upToLastDash : List Char → List Char
  | [] => []
  | c :: rest =>
    match upToLastDash rest with
    | [] => if c = '-' then ['-'] else []
    | x :: xs => c :: x :: xs

theorem upToLastDash_snoc_dash (xs : List Char) :
    upToLastDash (xs ++ ['-']) = xs ++ ['-'] := by
  induction xs with
  | nil => simp [upToLastDash]
  | cons a xs ih =>
    simp only [List.cons_append, upToLastDash, List.append_eq]
    rw [ih]
    cases hx : xs ++ ['-'] with
    | nil => exact absurd hx (by simp)
    | cons x xs2 => simp

theorem upToLastDash_snoc_ne (xs : List Char) (c : Char) (hc : ¬ c = '-') :
    upToLastDash (xs ++ [c]) = upToLastDash xs := by
  induction xs with
  | nil => simp [upToLastDash, hc]
  | cons a xs ih =>
    cases h : upToLastDash xs with
    | nil => simp [upToLastDash, ih, h]
    | cons x xs2 => simp [upToLastDash, ih, h]

theorem upToLastDash_eq_rev (cs : List Char) :
    upToLastDash cs = (cs.reverse.dropWhile (fun c => c != '-')).reverse := by
  induction cs using List.reverseRecOn with
  | nil => simp [upToLastDash]
  | append_singleton xs c ih =>
    by_cases hc : c = '-'
    · subst hc
      rw [upToLastDash_snoc_dash]
      simp [List.dropWhile]
    · rw [upToLastDash_snoc_ne xs c hc, ih]
      have hb : (c != '-') = true := by simpa using hc
      simp [List.dropWhile, hb]

theorem dropWhile_dash_of_mem {l : List Char} (h : '-' ∈ l) :
    ∃ t, l.dropWhile (fun c => c != '-') = '-' :: t := by
  induction l with
  | nil => cases h
  | cons c rest ih =>
    by_cases hc : c = '-'
    · subst hc
      exact ⟨rest, by simp [List.dropWhile]⟩
    · have hb : (c != '-') = true := by simpa using hc
      have hmem : '-' ∈ rest := by
        rcases List.mem_cons.mp h with h1 | h1
        · exact absurd h1.symm hc
        · exact h1
      rcases ih hmem with ⟨t, ht⟩
      exact ⟨t, by simp [List.dropWhile, hb, ht]⟩

theorem prefix_from_boxid_data (s : String) (h : '-' ∈ s.data) :
    (prefix_from_boxid s).data = upToLastDash s.data := by
  have hrev : '-' ∈ s.data.reverse := List.mem_reverse.mpr h
  rcases dropWhile_dash_of_mem hrev with ⟨t, ht⟩
  rw [prefix_from_boxid, if_pos h, upToLastDash_eq_rev, ht]
  simp

theorem upToLastDash_append (cs : List Char) : ∃ t, cs = upToLastDash cs ++ t := by
  induction cs with
  | nil => exact ⟨[], rfl⟩
  | cons c rest ih =>
    rcases ih with ⟨t0, ht0⟩
    cases h : upToLastDash rest with
    | nil =>
      by_cases hc : c = '-'
      · subst hc
        exact ⟨rest, by simp [upToLastDash, h]⟩
      · exact ⟨c :: rest, by simp [upToLastDash, h, hc]⟩
    | cons x xs =>
      refine ⟨t0, ?_⟩
      rw [h] at ht0
      have hu : upToLastDash (c :: rest) = c :: x :: xs := by
        simp only [upToLastDash, h]
      rw [hu, ht0]
      simp

theorem prefix_from_boxid_pos (s : String) (h : '-' ∈ s.data) :
    prefix_from_boxid s =
      String.mk (((s.data.reverse.dropWhile (fun c => c != '-')).tail).reverse ++ ['-']) := by
  rw [prefix_from_boxid, if_pos h]

theorem prefix_from_boxid_fix (xs : List Char) :
    prefix_from_boxid (String.mk (xs ++ ['-'])) = String.mk (xs ++ ['-']) := by
  have hmem : '-' ∈ (String.mk (xs ++ ['-'])).data := by simp
  rw [prefix_from_boxid, if_pos hmem]
  simp [List.dropWhile]

/-- C9: `prefix_of` is a total pure function: for every id containing `-` it
returns everything up to and including the last separator (characterised by
the independent recursion `upToLastDash`), otherwise the id unchanged; with
the two concrete examples from the spec. -/
theorem c9_prefix_of_spec :
    (∀ s : String, '-' ∉ s.data → prefix_from_boxid s = s) ∧
    (∀ s : String, '-' ∈ s.data → (prefix_from_boxid s).data = upToLastDash s.data) ∧
    prefix_from_boxid "ITEM-20240101-01-0007" = "ITEM-20240101-01-" ∧
    prefix_from_boxid "NODASH" = "NODASH" := by
  refine ⟨?_, ?_, by decide, by decide⟩
  · intro s h
    rw [prefix_from_boxid, if_neg h]
  · exact prefix_from_boxid_data

/-- Witness for C9 at a concrete input. -/
theorem c9_prefix_of_spec_witness :
    (prefix_from_boxid "A-B").data = upToLastDash "A-B".data :=
  c9_prefix_of_spec.2.1 "A-B" (by decide)

/-- C10: `prefix_of` is idempotent, and on ids containing `-` its result is
an initial segment of the input. -/
theorem c10_prefix_of_algebra :
    (∀ s : String, prefix_from_boxid (prefix_from_boxid s) = prefix_from_boxid s) ∧
    (∀ s : String, '-' ∈ s.data → ∃ t, s.data = (prefix_from_boxid s).data ++ t) := by
  constructor
  · intro s
    by_cases h : '-' ∈ s.data
    · rw [prefix_from_boxid_pos s h]
      exact prefix_from_boxid_fix _
    · have hs : prefix_from_boxid s = s := by rw [prefix_from_boxid, if_neg h]
      rw [hs, hs]
  · intro s h
    rw [prefix_from_boxid_data s h]
    exact upToLastDash_append s.data

/-- Witness for C10 at a concrete input. -/
theorem c10_prefix_of_algebra_witness :
    ∃ t, "A-B".data = (prefix_from_boxid "A-B").data ++ t :=
  c10_prefix_of_algebra.2 "A-B" (by decide)

/-! ### Data model (`db.py` schemas) -/

/-- A row of `boxid_log` (the current-location projection). -/
structure BoxRow where
  boxID : String
  itemCode : Option String
  qty : Option Int
  status : Option String
  location : Option String
  createdAt : Option String
  updatedAt : Option String
deriving Repr, DecidableEq

/-- A row of the move-history ledger (`box_move_log` locally, `move_log` on
Postgres). `mid` is the auto-increment key. -/
structure MoveRow where
  mid : Nat
  boxID : String
  fromLoc : Option String
  toLoc : String
  movedAt : String
  op : String
  reason : Option String
deriving Repr, DecidableEq

/-- Local SQLite database: `boxid_log` rows in rowid (insertion) order and
the `box_move_log` ledger in id order. -/
structure LocalDB where
  boxidLog : List BoxRow
  boxMoveLog : List MoveRow
  nextMoveId : Nat
deriving Repr, DecidableEq

/-- A minimal box row (only id and location populated), as used in tests. -/
def mkBox (id : String) (loc : Option String) : BoxRow :=
  ⟨id, none, none, none, loc, none, none⟩

/-! ### Local backend (`location_utils.py`, SQLite branch) -/

/-- Python `row[0] if row and row[0] else None`: null and empty-string
locations collapse to "absent". -/
def locValue : Option String → Option String
  | none => none
  | some l => if l = "" then none else some l

/-- `SELECT Location FROM boxid_log WHERE BoxID=? LIMIT 1` (no ORDER BY),
then the `row and row[0]` truthiness collapse. -/
def localReadLoc (db : LocalDB) (boxid : String) : Option String :=
  match (db.boxidLog.filter (fun r => r.boxID == boxid)).head? with
  | none => none
  | some r => locValue r.location

/-- `get_current_location` (local): `SELECT Location FROM boxid_log WHERE
BoxID=? ORDER BY rowid DESC LIMIT 1`, then the truthiness collapse. -/
def get_current_location (db : LocalDB) (boxid : String) : Option String :=
  match (db.boxidLog.filter (fun r => r.boxID == boxid)).getLast? with
  | none => none
  | some r => locValue r.location

/-- `get_move_history` (local): ledger rows for the box, newest (largest id)
first, capped at `limit`. -/
def get_move_history (db : LocalDB) (boxid : String) (limit : Nat) : List MoveRow :=
  ((db.boxMoveLog.filter (fun m => m.boxID == boxid)).reverse).take limit

/-- `INSERT INTO box_move_log(BoxID, FromLoc, ToLoc, MovedAt, Operator,
Reason) VALUES (...)`. -/
def insertMoveLogLocal (db : LocalDB) (boxid : String) (fromLoc : Option String)
    (toLoc now operator : String) (reason : Option String) : LocalDB :=
  { db with
    boxMoveLog := db.boxMoveLog ++ [⟨db.nextMoveId, boxid, fromLoc, toLoc, now, operator, reason⟩]
    nextMoveId := db.nextMoveId + 1 }

/-- `UPDATE boxid_log SET Location=?, UpdatedAt=? WHERE BoxID=?`: updates
matching rows in place; inserts nothing when no row matches. -/
def updateBoxLocLocal (db : LocalDB) (boxid toLoc now : String) : LocalDB :=
  { db with
    boxidLog := db.boxidLog.map (fun r =>
      if r.boxID == boxid then { r with location := some toLoc, updatedAt := some now } else r) }

/-- `assign_initial_location` (local), run inside the sqlite3 `with`-block:
commit on normal exit, rollback (state unchanged) when the statement at
index `failAt` raises. Returns the error message (if any) and the visible
database state after the call. -/
def assignInitialFx (db : LocalDB) (boxid toLoc operator reason now : String)
    (failAt : Option Nat) : Option String × LocalDB :=
  if failAt = some 0 then (some "fault select", db)
  else
    let fromLoc := localReadLoc db boxid
    if failAt = some 1 then (some "fault insert", db)
    else
      let db1 := insertMoveLogLocal db boxid fromLoc toLoc now operator (some reason)
      if failAt = some 2 then (some "fault update", db)
      else
        let db2 := updateBoxLocLocal db1 boxid toLoc now
        if failAt = some 3 then (some "fault commit", db)
        else (none, db2)

/-- `move_location` (local): same statements as `assign_initial_location`
(the two bodies are line-for-line identical; only the default of the
`reason` parameter differs, see `move_location_default`). -/
def moveLocationFx (db : LocalDB) (boxid toLoc operator reason now : String)
    (failAt : Option Nat) : Option String × LocalDB :=
  if failAt = some 0 then (some "fault select", db)
  else
    let fromLoc := localReadLoc db boxid
    if failAt = some 1 then (some "fault insert", db)
    else
      let db1 := insertMoveLogLocal db boxid fromLoc toLoc now operator (some reason)
      if failAt = some 2 then (some "fault update", db)
      else
        let db2 := updateBoxLocLocal db1 boxid toLoc now
        if failAt = some 3 then (some "fault commit", db)
        else (none, db2)

/-- `assign_initial_location` on the fault-free path. -/
def assign_initial_location (db : LocalDB) (boxid toLoc operator reason now : String) : LocalDB :=
  (assignInitialFx db boxid toLoc operator reason now none).2

/-- `move_location` on the fault-free path. -/
def move_location (db : LocalDB) (boxid toLoc operator reason now : String) : LocalDB :=
  (moveLocationFx db boxid toLoc operator reason now none).2

/-- `assign_initial_location` with the `reason` argument omitted: the Python
default is `"INITIAL"`. -/
def assign_initial_location_default (db : LocalDB) (boxid toLoc operator now : String) : LocalDB :=
  assign_initial_location db boxid toLoc operator "INITIAL" now

/-- `move_location` with the `reason` argument omitted: the Python default
is `""` (not `"MOVE"`). -/
def move_location_default (db : LocalDB) (boxid toLoc operator now : String) : LocalDB :=
  move_location db boxid toLoc operator "" now

/-! ### Networked backend (`location_utils.py`, Postgres branch) -/

/-- Networked relational state: the `move_log` ledger plus the configurable
`boxes` table — three flags say whether the table and its configured
id/location columns exist; its rows carry just the two accessed columns. -/
structure PgState where
  tableOk : Bool
  idColOk : Bool
  locColOk : Bool
  boxes : List (String × Option String)
  moveLog : List MoveRow
  nextMoveId : Nat
deriving Repr, DecidableEq

/-- The capability check both `_get_current_location_pg` and
`_upsert_location_pg` perform before touching the boxes table. -/
def pgSchemaOk (s : PgState) : Bool :=
  s.tableOk && s.idColOk && s.locColOk

/-- `_get_current_location_pg`: `None` when the table or a column is
missing, else the raw location of the first matching row (`row[0] if row
else None` — no empty-string collapse here). -/
def get_current_location_pg (s : PgState) (boxid : String) : Option String :=
  if pgSchemaOk s then
    match (s.boxes.filter (fun p => p.1 == boxid)).head? with
    | some p => p.2
    | none => none
  else none

/-- `_upsert_location_pg`: skipped silently when the table or a column is
missing; else `INSERT ... ON CONFLICT (id) DO UPDATE SET loc = EXCLUDED.loc`. -/
def upsert_location_pg (s : PgState) (boxid toLoc : String) : PgState :=
  if pgSchemaOk s then
    if s.boxes.any (fun p => p.1 == boxid) then
      { s with boxes := s.boxes.map (fun p => if p.1 == boxid then (p.1, some toLoc) else p) }
    else
      { s with boxes := s.boxes ++ [(boxid, some toLoc)] }
  else s

/-- `INSERT INTO move_log(box_id, from_location, to_location, moved_by,
note) VALUES (...)`; `moved_at` takes the engine's `NOW()`, passed as
`now`. -/
def insertMoveLogPg (s : PgState) (boxid : String) (fromLoc : Option String)
    (toLoc operator : String) (reason : Option String) (now : String) : PgState :=
  { s with
    moveLog := s.moveLog ++ [⟨s.nextMoveId, boxid, fromLoc, toLoc, now, operator, reason⟩]
    nextMoveId := s.nextMoveId + 1 }

/-- `get_move_history` (Postgres): ledger rows for the box, newest first,
capped at `limit`. -/
def get_move_history_pg (s : PgState) (boxid : String) (limit : Nat) : List MoveRow :=
  ((s.moveLog.filter (fun m => m.boxID == boxid)).reverse).take limit

/-- `assign_initial_location` (Postgres): `init_move_tables` (own
connection, `CREATE IF NOT EXISTS`, a no-op on this state), read the
current location, insert the ledger row, upsert, commit; any raising
statement (index `failAt`) triggers `conn.rollback()`, so the visible
state is unchanged on error. -/
def assignInitialPgFx (s : PgState) (boxid toLoc operator : String)
    (reason : Option String) (now : String) (failAt : Option Nat) :
    Option String × PgState :=
  if failAt = some 0 then (some "fault init", s)
  else
    let fromLoc := get_current_location_pg s boxid
    if failAt = some 1 then (some "fault select", s)
    else
      let s1 := insertMoveLogPg s boxid fromLoc toLoc operator reason now
      if failAt = some 2 then (some "fault insert", s)
      else
        let s2 := upsert_location_pg s1 boxid toLoc
        if failAt = some 3 then (some "fault upsert", s)
        else
          if failAt = some 4 then (some "fault commit", s)
          else (none, s2)

/-- `move_location` (Postgres): identical statements, but the ledger stores
`reason if reason else None`, so an empty reason becomes null. -/
def moveLocationPgFx (s : PgState) (boxid toLoc operator reason now : String)
    (failAt : Option Nat) : Option String × PgState :=
  assignInitialPgFx s boxid toLoc operator (if reason = "" then none else some reason) now failAt

/-- `assign_initial_location` (Postgres) with the Python default
`reason="INITIAL"`, fault-free path. -/
def assign_initial_location_pg (s : PgState) (boxid toLoc operator now : String) : PgState :=
  (assignInitialPgFx s boxid toLoc operator (some "INITIAL") now none).2

/-- `move_location` (Postgres) with the Python default `reason=""`,
fault-free path. -/
def move_location_pg_default (s : PgState) (boxid toLoc operator now : String) : PgState :=
  (moveLocationPgFx s boxid toLoc operator "" now none).2

/-! ### Range/bulk resolver and query surface (`mobile_api.py`) -/

/-- Python truthiness of an optional location read through `q(...)`
(`cur[0]["Location"] if cur else None`, then `if cur_loc:`). -/
def locTruthy : Option String → Bool
  | none => false
  | some s => !(s == "")

/-- The raw location of the first `boxid_log` row for the box, as read by
`q("SELECT Location FROM boxid_log WHERE BoxID=? LIMIT 1")`. -/
def rawReadLoc (db : LocalDB) (boxid : String) : Option String :=
  match (db.boxidLog.filter (fun r => r.boxID == boxid)).head? with
  | none => none
  | some r => r.location

/-- The range query's WHERE clause: `BoxID LIKE ? || '%' AND
CAST(substr(BoxID, -4) AS INTEGER) BETWEEN ? AND ?`. -/
def rangePred (pfx : String) (start stop : Int) (id : String) : Bool :=
  matchLike (pfx.data ++ ['%']) id.data
    && decide (start ≤ sqliteCastInt (last4 id))
    && decide (sqliteCastInt (last4 id) ≤ stop)

/-- One iteration of the `move_by_range` loop: re-read the box's location,
call `move_location` if it is truthy, else `assign_initial_location` with
reason forced to `"INITIAL"`; count it as moved. -/
def rangeStep (toLoc operator reason now : String) (acc : LocalDB × Nat) (b : String) :
    LocalDB × Nat :=
  let db' :=
    if locTruthy (rawReadLoc acc.1 b) then
      (moveLocationFx acc.1 b toLoc operator reason now none).2
    else
      (assignInitialFx acc.1 b toLoc operator "INITIAL" now none).2
  (db', acc.2 + 1)

/-- `move_by_range`: resolve the prefix, select matching box ids in
ascending `BoxID` order, 404 (`Except.error`) when none match, else
move/assign each and return the new state with the moved count. -/
def move_by_range (db : LocalDB) (boxid : String) (start stop : Int)
    (toLoc operator reason now : String) : Except String (LocalDB × Nat) :=
  let pfx := prefix_from_boxid boxid
  let ids := (db.boxidLog.filter (fun r => rangePred pfx start stop r.boxID)).map
    (fun r => r.boxID)
  let sortedIds := List.insertionSort (fun a b : String => strLt b a = false) ids
  if sortedIds.isEmpty then Except.error "No boxes in range"
  else Except.ok (sortedIds.foldl (rangeStep toLoc operator reason now) (db, 0))

/-- One iteration of the `move_bulk` loop: the same move-or-assign call,
but wrapped in `try/except`, collecting `(boxid, error)` on failure; the
per-box fault plan models storage-layer errors (e.g. a backend constraint
rejecting the write). -/
def bulkStep (toLoc operator reason now : String) (failPlan : String → Option Nat)
    (acc : LocalDB × Nat × List (String × String)) (b : String) :
    LocalDB × Nat × List (String × String) :=
  let res :=
    if locTruthy (rawReadLoc acc.1 b) then
      moveLocationFx acc.1 b toLoc operator reason now (failPlan b)
    else
      assignInitialFx acc.1 b toLoc operator "INITIAL" now (failPlan b)
  match res with
  | (some e, db') => (db', acc.2.1, acc.2.2 ++ [(b, e)])
  | (none, db') => (db', acc.2.1 + 1, acc.2.2)

/-- `move_bulk`: 400 (`Except.error`) on an empty list, else iterate the
explicit list, counting successes and collecting per-item failures. -/
def move_bulk (db : LocalDB) (boxids : List String) (toLoc operator reason now : String)
    (failPlan : String → Option Nat) :
    Except String (LocalDB × Nat × List (String × String)) :=
  if boxids.isEmpty then Except.error "boxids empty"
  else Except.ok (boxids.foldl (bulkStep toLoc operator reason now failPlan) (db, 0, []))

/-- `COALESCE(UpdatedAt, CreatedAt)`, the sort key of `boxes_search`. -/
def searchKeyOf (r : BoxRow) : Option String :=
  match r.updatedAt with
  | some u => some u
  | none => r.createdAt

/-- SQL `ORDER BY` comparison on a nullable text key: nulls sort lowest,
text in code-point order. -/
def optStrLt (x y : Option String) : Bool :=
  match x, y with
  | none, some _ => true
  | none, none => false
  | some _, none => false
  | some a, some b => strLt a b

/-- Lexicographic "≤" on (nullable sort key, rowid). -/
def pairLe (x y : Option String × Nat) : Bool :=
  optStrLt x.1 y.1 || (x.1 == y.1 && decide (x.2 ≤ y.2))

/-- `ORDER BY COALESCE(UpdatedAt, CreatedAt) DESC, rowid DESC`: row `a`
comes no later than row `b` iff `b`'s (key, rowid) is ≤ `a`'s. -/
def searchOrder (a b : Nat × BoxRow) : Prop :=
  pairLe (searchKeyOf b.2, b.1) (searchKeyOf a.2, a.1) = true

instance searchOrder.decRel : DecidableRel searchOrder := by
  intro a b
  unfold searchOrder
  infer_instance

theorem optStrLt_trans {x y z : Option String} (h1 : optStrLt x y = true)
    (h2 : optStrLt y z = true) : optStrLt x z = true := by
  cases x with
  | none =>
    cases z with
    | none => cases y <;> simp [optStrLt] at h1 h2
    | some c => simp [optStrLt]
  | some a =>
    cases y with
    | none => simp [optStrLt] at h1
    | some b =>
      cases z with
      | none => simp [optStrLt] at h2
      | some c =>
        simp only [optStrLt] at h1 h2 ⊢
        exact charsLt_trans a.data b.data c.data h1 h2

theorem pairLe_trans {x y z : Option String × Nat} (h1 : pairLe x y = true)
    (h2 : pairLe y z = true) : pairLe x z = true := by
  simp only [pairLe, Bool.or_eq_true, Bool.and_eq_true, beq_iff_eq, decide_eq_true_eq]
    at h1 h2 ⊢
  rcases h1 with h1 | ⟨h1e, h1n⟩
  · rcases h2 with h2 | ⟨h2e, h2n⟩
    · exact Or.inl (optStrLt_trans h1 h2)
    · exact Or.inl (h2e ▸ h1)
  · rcases h2 with h2 | ⟨h2e, h2n⟩
    · exact Or.inl (h1e ▸ h2)
    · exact Or.inr ⟨h1e.trans h2e, Nat.le_trans h1n h2n⟩

theorem pairLe_total (x y : Option String × Nat) :
    pairLe x y = true ∨ pairLe y x = true := by
  simp only [pairLe, Bool.or_eq_true, Bool.and_eq_true, beq_iff_eq, decide_eq_true_eq]
  match hx : x.1, hy : y.1 with
  | none, none => rcases Nat.le_total x.2 y.2 with h | h
                  · exact Or.inl (Or.inr ⟨rfl, h⟩)
                  · exact Or.inr (Or.inr ⟨rfl, h⟩)
  | none, some b => exact Or.inl (Or.inl (by simp [optStrLt]))
  | some a, none => exact Or.inr (Or.inl (by simp [optStrLt]))
  | some a, some b =>
    rcases strLt_trichot a b with h | h | h
    · exact Or.inl (Or.inl (by simp [optStrLt, h]))
    · subst h
      rcases Nat.le_total x.2 y.2 with h | h
      · exact Or.inl (Or.inr ⟨rfl, h⟩)
      · exact Or.inr (Or.inr ⟨rfl, h⟩)
    · exact Or.inr (Or.inl (by simp [optStrLt, h]))

instance searchOrder.isTrans : IsTrans (Nat × BoxRow) searchOrder :=
  ⟨fun _ _ _ h1 h2 => pairLe_trans h2 h1⟩

instance searchOrder.isTotal : IsTotal (Nat × BoxRow) searchOrder :=
  ⟨fun a b => (pairLe_total _ _).symm⟩

/-- Python truthiness of an optional query parameter: `None` and `""` both
disable the filter. -/
def activeF : Option String → Option String
  | none => none
  | some s => if s = "" then none else some s

/-- The WHERE clause of `boxes_search`: `BoxID LIKE '%sub%'` (when the
`boxid` parameter is truthy) and `Location LIKE 'pre%'` (when `location`
is truthy; a null location never matches). -/
def searchPred (bidF locF : Option String) (r : BoxRow) : Bool :=
  (match activeF bidF with
   | none => true
   | some sub => matchLike ('%' :: (sub.data ++ ['%'])) r.boxID.data)
  && (match activeF locF with
      | none => true
      | some pre =>
        match r.location with
        | none => false
        | some l => matchLike (pre.data ++ ['%']) l.data)

/-- `boxes_search`, keeping each row's rowid: filter, `ORDER BY
COALESCE(UpdatedAt, CreatedAt) DESC, rowid DESC`, `LIMIT`. -/
def boxes_search_rows (db : LocalDB) (bidF locF : Option String) (limit : Nat) :
    List (Nat × BoxRow) :=
  (List.insertionSort searchOrder
    ((db.boxidLog.enum).filter (fun p => searchPred bidF locF p.2))).take limit

/-- `boxes_search`: the rows returned to the client. -/
def boxes_search (db : LocalDB) (bidF locF : Option String) (limit : Nat) : List BoxRow :=
  (boxes_search_rows db bidF locF limit).map Prod.snd

/-! ### Helper lemmas -/

theorem filter_eq_nil_of {α : Type} (p : α → Bool) (l : List α)
    (h : ∀ a ∈ l, p a = false) : l.filter p = [] := by
  induction l with
  | nil => rfl
  | cons a t ih =>
    simp [List.filter_cons, h a (List.mem_cons_self a t),
      ih (fun x hx => h x (List.mem_cons_of_mem a hx))]

theorem map_id_of {α : Type} (f : α → α) (l : List α) (h : ∀ a ∈ l, f a = a) :
    l.map f = l := by
  induction l with
  | nil => rfl
  | cons a t ih =>
    simp [h a (List.mem_cons_self a t), ih (fun x hx => h x (List.mem_cons_of_mem a hx))]

theorem assignInitialFx_none (db : LocalDB) (boxid toLoc op reason now : String) :
    assignInitialFx db boxid toLoc op reason now none =
      (none, updateBoxLocLocal
        (insertMoveLogLocal db boxid (localReadLoc db boxid) toLoc now op (some reason))
        boxid toLoc now) := rfl

theorem moveLocationFx_none (db : LocalDB) (boxid toLoc op reason now : String) :
    moveLocationFx db boxid toLoc op reason now none =
      (none, updateBoxLocLocal
        (insertMoveLogLocal db boxid (localReadLoc db boxid) toLoc now op (some reason))
        boxid toLoc now) := rfl

theorem assignInitialPgFx_none (s : PgState) (boxid toLoc op : String)
    (reason : Option String) (now : String) :
    assignInitialPgFx s boxid toLoc op reason now none =
      (none, upsert_location_pg
        (insertMoveLogPg s boxid (get_current_location_pg s boxid) toLoc op reason now)
        boxid toLoc) := rfl

/-! ### C1 — lazy creation on first assign -/

/-- C1 as stated is false on the local backend it cites: on a wholly unseen
box id, `assign_initial_location` appends the single history row (with null
`FromLoc`) but its `UPDATE boxid_log` matches no row and inserts none, so
`get_current_location` still returns absent instead of the assigned
location. -/
theorem c1_counterexample :
    get_current_location
      (assign_initial_location ⟨[], [], 0⟩ "B-0001" "A1" "op" "INITIAL" "t1") "B-0001" = none
    ∧ (none : Option String) ≠ some "A1"
    ∧ get_move_history
        (assign_initial_location ⟨[], [], 0⟩ "B-0001" "A1" "op" "INITIAL" "t1") "B-0001" 20
      = [⟨0, "B-0001", none, "A1", "t1", "op", some "INITIAL"⟩] := by
  refine ⟨by decide, by decide, by decide⟩

/-- C1 (amended): for an unseen box id, the first `assign_initial` records
exactly one history entry with null `FromLoc` on either backend; on the
networked backend the box record is created lazily by the upsert and
`get_current_location` then returns the assigned location, while on the
local backend no box record is created (the current-location `UPDATE`
matches nothing) and `get_current_location` returns absent. -/
theorem c1_amended_lazy_creation :
    (∀ (db : LocalDB) (boxid toLoc op now : String),
      (∀ r ∈ db.boxidLog, r.boxID ≠ boxid) →
      (∀ m ∈ db.boxMoveLog, m.boxID ≠ boxid) →
      get_move_history (assign_initial_location db boxid toLoc op "INITIAL" now) boxid 20
          = [⟨db.nextMoveId, boxid, none, toLoc, now, op, some "INITIAL"⟩]
        ∧ get_current_location (assign_initial_location db boxid toLoc op "INITIAL" now) boxid
          = none
        ∧ (assign_initial_location db boxid toLoc op "INITIAL" now).boxidLog = db.boxidLog) ∧
    (∀ (s : PgState) (boxid toLoc op now : String),
      pgSchemaOk s = true →
      (∀ p ∈ s.boxes, p.1 ≠ boxid) →
      (∀ m ∈ s.moveLog, m.boxID ≠ boxid) →
      get_current_location_pg (assign_initial_location_pg s boxid toLoc op now) boxid
          = some toLoc
        ∧ get_move_history_pg (assign_initial_location_pg s boxid toLoc op now) boxid 20
          = [⟨s.nextMoveId, boxid, none, toLoc, now, op, some "INITIAL"⟩]) := by
  constructor
  · intro db boxid toLoc op now h1 h2
    have hfb : db.boxidLog.filter (fun r => r.boxID == boxid) = [] :=
      filter_eq_nil_of _ _ (fun r hr => by simpa using h1 r hr)
    have hread : localReadLoc db boxid = none := by
      rw [localReadLoc, hfb]
      rfl
    have hlog : (assign_initial_location db boxid toLoc op "INITIAL" now).boxidLog
        = db.boxidLog := by
      rw [assign_initial_location, assignInitialFx_none]
      show (updateBoxLocLocal _ boxid toLoc now).boxidLog = _
      rw [updateBoxLocLocal]
      exact map_id_of _ _ (fun r hr => by
        have : (r.boxID == boxid) = false := by simpa using h1 r hr
        simp [this])
    have hmove : (assign_initial_location db boxid toLoc op "INITIAL" now).boxMoveLog
        = db.boxMoveLog ++ [⟨db.nextMoveId, boxid, none, toLoc, now, op, some "INITIAL"⟩] := by
      rw [assign_initial_location, assignInitialFx_none, hread]
      rfl
    refine ⟨?_, ?_, hlog⟩
    · rw [get_move_history, hmove, List.filter_append]
      rw [filter_eq_nil_of _ _ (fun m hm => by simpa using h2 m hm)]
      simp
    · rw [get_current_location, hlog, hfb]
      rfl
  · intro s boxid toLoc op now hok h1 h2
    have hfb : s.boxes.filter (fun p => p.1 == boxid) = [] :=
      filter_eq_nil_of _ _ (fun p hp => by simpa using h1 p hp)
    have hread : get_current_location_pg s boxid = none := by
      rw [get_current_location_pg, if_pos hok, hfb]
      rfl
    have hok1 : pgSchemaOk (insertMoveLogPg s boxid none toLoc op (some "INITIAL") now)
        = true := hok
    have hany : (insertMoveLogPg s boxid none toLoc op (some "INITIAL") now).boxes.any
        (fun p => p.1 == boxid) = false := by
      show s.boxes.any (fun p => p.1 == boxid) = false
      rw [List.any_eq_false]
      intro p hp
      simpa using h1 p hp
    have hs2 : assign_initial_location_pg s boxid toLoc op now =
        { insertMoveLogPg s boxid none toLoc op (some "INITIAL") now with
          boxes := s.boxes ++ [(boxid, some toLoc)] } := by
      rw [assign_initial_location_pg, assignInitialPgFx_none, hread]
      show upsert_location_pg _ boxid toLoc = _
      rw [upsert_location_pg, if_pos hok1, hany]
      rfl
    have h2ok : pgSchemaOk (assign_initial_location_pg s boxid toLoc op now) = true := by
      rw [hs2]
      exact hok
    have h2boxes : (assign_initial_location_pg s boxid toLoc op now).boxes
        = s.boxes ++ [(boxid, some toLoc)] := by
      rw [hs2]
    have h2log : (assign_initial_location_pg s boxid toLoc op now).moveLog
        = s.moveLog ++ [⟨s.nextMoveId, boxid, none, toLoc, now, op, some "INITIAL"⟩] := by
      rw [hs2]
      rfl
    constructor
    · rw [get_current_location_pg, if_pos h2ok, h2boxes, List.filter_append, hfb]
      simp
    · rw [get_move_history_pg, h2log, List.filter_append,
        filter_eq_nil_of _ _ (fun m hm => by simpa using h2 m hm)]
      simp

/-- Witness for C1 (amended) at a concrete input. -/
theorem c1_amended_lazy_creation_witness :
    get_current_location_pg
      (assign_initial_location_pg ⟨true, true, true, [], [], 0⟩ "B-1" "A1" "op" "t1") "B-1"
    = some "A1" :=
  (c1_amended_lazy_creation.2 ⟨true, true, true, [], [], 0⟩ "B-1" "A1" "op" "t1" rfl
    (by simp) (by simp)).1

theorem upsert_moveLog (s : PgState) (b l : String) :
    (upsert_location_pg s b l).moveLog = s.moveLog := by
  unfold upsert_location_pg
  split
  · split <;> rfl
  · rfl

theorem upsert_nextMoveId (s : PgState) (b l : String) :
    (upsert_location_pg s b l).nextMoveId = s.nextMoveId := by
  unfold upsert_location_pg
  split
  · split <;> rfl
  · rfl

/-! ### C5 — move vs assign: same write, different default reason -/

/-- C5 as stated is false: calling `move_location` with the `reason`
argument omitted records its Python default `""` (not `"MOVE"`; the
`"MOVE"` default lives only in the API request models). -/
theorem c5_counterexample :
    (get_move_history
        (move_location_default ⟨[mkBox "M-01" (some "D1")], [], 0⟩ "M-01" "L2" "op" "t1")
        "M-01" 20).map (fun m => m.reason) = [some ""]
    ∧ (some "" : Option String) ≠ some "MOVE" := ⟨by decide, by decide⟩

/-- C5 (amended): `move_location` and `assign_initial_location` are the
same write — on the local backend the two functions are identical for every
input, and on the networked backend they agree whenever the explicit reason
is non-empty (`move` nulls out an empty reason) — but the defaults differ:
`assign_initial_location` defaults the recorded reason to `"INITIAL"` while
`move_location` defaults it to `""` (stored as null on the networked
backend), not `"MOVE"`. -/
theorem c5_amended_same_write :
    (assignInitialFx = moveLocationFx) ∧
    (∀ (s : PgState) (b l o r now : String) (fa : Option Nat), r ≠ "" →
      moveLocationPgFx s b l o r now fa = assignInitialPgFx s b l o (some r) now fa) ∧
    (∀ (db : LocalDB) (b l o now : String),
      (move_location_default db b l o now).boxMoveLog
        = db.boxMoveLog ++ [⟨db.nextMoveId, b, localReadLoc db b, l, now, o, some ""⟩]) ∧
    (∀ (db : LocalDB) (b l o now : String),
      (assign_initial_location_default db b l o now).boxMoveLog
        = db.boxMoveLog ++ [⟨db.nextMoveId, b, localReadLoc db b, l, now, o, some "INITIAL"⟩]) ∧
    (∀ (s : PgState) (b l o now : String),
      (move_location_pg_default s b l o now).moveLog
        = s.moveLog ++ [⟨s.nextMoveId, b, get_current_location_pg s b, l, now, o, none⟩]) := by
  refine ⟨rfl, ?_, ?_, ?_, ?_⟩
  · intro s b l o r now fa hr
    rw [moveLocationPgFx, if_neg hr]
  · intro db b l o now
    rfl
  · intro db b l o now
    rfl
  · intro s b l o now
    rw [move_location_pg_default, moveLocationPgFx, if_pos rfl, assignInitialPgFx_none]
    show (upsert_location_pg _ b l).moveLog = _
    rw [upsert_moveLog]
    rfl

/-- Witness for C5 (amended) at a concrete input. -/
theorem c5_amended_same_write_witness :
    moveLocationPgFx ⟨true, true, true, [], [], 0⟩ "B" "L" "o" "X" "t" none
      = assignInitialPgFx ⟨true, true, true, [], [], 0⟩ "B" "L" "o" (some "X") "t" none :=
  c5_amended_same_write.2.1 ⟨true, true, true, [], [], 0⟩ "B" "L" "o" "X" "t" none (by decide)

/-! ### C6 — missing boxes table/columns on the networked backend -/

/-- C6: when the configured boxes table or its id/location columns are
absent (`pgSchemaOk` false), the existence check fails before any
current-location read or upsert, `get_current_location` returns absent, the
upsert is silently skipped (boxes rows untouched), yet the call succeeds
and still appends its history row. `move_location` is covered too, being
`assignInitialPgFx` applied to the nulled-out reason (see
`c5_amended_same_write`). -/
theorem c6_schema_absent_skip :
    ∀ (s : PgState) (b l o : String) (r : Option String) (now : String),
      pgSchemaOk s = false →
      (assignInitialPgFx s b l o r now none).1 = none
      ∧ (assignInitialPgFx s b l o r now none).2.boxes = s.boxes
      ∧ (assignInitialPgFx s b l o r now none).2.moveLog
          = s.moveLog ++ [⟨s.nextMoveId, b, none, l, now, o, r⟩]
      ∧ get_current_location_pg s b = none
      ∧ get_current_location_pg (assignInitialPgFx s b l o r now none).2 b = none := by
  intro s b l o r now hbad
  have hnot : ¬ pgSchemaOk s = true := by simp [hbad]
  have hread : get_current_location_pg s b = none := by
    rw [get_current_location_pg, if_neg hnot]
  have hnot1 : ¬ pgSchemaOk (insertMoveLogPg s b none l o r now) = true := hnot
  have hup : upsert_location_pg (insertMoveLogPg s b none l o r now) b l
      = insertMoveLogPg s b none l o r now := by
    rw [upsert_location_pg, if_neg hnot1]
  have hfx : assignInitialPgFx s b l o r now none
      = (none, insertMoveLogPg s b none l o r now) := by
    rw [assignInitialPgFx_none, hread, hup]
  rw [hfx]
  refine ⟨rfl, rfl, rfl, hread, ?_⟩
  rw [get_current_location_pg, if_neg hnot1]

/-- Witness for C6 at a concrete input (boxes table absent). -/
theorem c6_schema_absent_skip_witness :
    (assignInitialPgFx ⟨false, true, true, [], [], 0⟩ "B" "L" "o" (some "INITIAL") "t" none).1
      = none :=
  (c6_schema_absent_skip ⟨false, true, true, [], [], 0⟩ "B" "L" "o" (some "INITIAL") "t"
    (by decide)).1

theorem upsert_boxes (s : PgState) (b l : String) :
    (upsert_location_pg s b l).boxes =
      if pgSchemaOk s then
        (if s.boxes.any (fun p => p.1 == b) then
          s.boxes.map (fun p => if p.1 == b then (p.1, some l) else p)
        else s.boxes ++ [(b, some l)])
      else s.boxes := by
  unfold upsert_location_pg
  split
  · split <;> rfl
  · rfl

/-! ### C2 — per-call atomicity of the ledger insert and the upsert -/

/-- C2: for a single `assign_initial`/`move` call on either backend, either
the call succeeds and both writes are applied (exactly one ledger row
appended, the current-location table exactly as the upsert/update leaves
it), or a statement raises and the transaction rollback (networked) /
sqlite `with`-block (local) leaves the stored state unchanged — no
half-applied state, at whatever statement the fault strikes.
`move_location` is the same code path on both backends (last two
conjuncts). -/
theorem c2_atomic_writes :
    (∀ (s : PgState) (b l o : String) (r : Option String) (now : String) (fa : Option Nat),
      ((assignInitialPgFx s b l o r now fa).1.isSome = true →
        (assignInitialPgFx s b l o r now fa).2 = s)
      ∧ ((assignInitialPgFx s b l o r now fa).1 = none →
        (assignInitialPgFx s b l o r now fa).2.moveLog
            = s.moveLog ++ [⟨s.nextMoveId, b, get_current_location_pg s b, l, now, o, r⟩]
          ∧ (assignInitialPgFx s b l o r now fa).2.boxes
            = (upsert_location_pg s b l).boxes)) ∧
    (∀ (db : LocalDB) (b l o r now : String) (fa : Option Nat),
      ((assignInitialFx db b l o r now fa).1.isSome = true →
        (assignInitialFx db b l o r now fa).2 = db)
      ∧ ((assignInitialFx db b l o r now fa).1 = none →
        (assignInitialFx db b l o r now fa).2.boxMoveLog
            = db.boxMoveLog ++ [⟨db.nextMoveId, b, localReadLoc db b, l, now, o, some r⟩]
          ∧ (assignInitialFx db b l o r now fa).2.boxidLog
            = (updateBoxLocLocal db b l now).boxidLog)) ∧
    (∀ (db : LocalDB) (b l o r now : String) (fa : Option Nat),
      moveLocationFx db b l o r now fa = assignInitialFx db b l o r now fa) ∧
    (∀ (s : PgState) (b l o r now : String) (fa : Option Nat),
      moveLocationPgFx s b l o r now fa
        = assignInitialPgFx s b l o (if r = "" then none else some r) now fa) := by
  refine ⟨?_, ?_, fun db b l o r now fa => rfl, fun s b l o r now fa => rfl⟩
  · intro s b l o r now fa
    rcases fa with _ | k
    · refine ⟨fun h => ?_, fun _ => ⟨?_, ?_⟩⟩
      · simp [assignInitialPgFx_none] at h
      · rw [assignInitialPgFx_none]
        show (upsert_location_pg _ b l).moveLog = _
        rw [upsert_moveLog]
        rfl
      · rw [assignInitialPgFx_none]
        show (upsert_location_pg _ b l).boxes = _
        rw [upsert_boxes, upsert_boxes]
        rfl
    · rcases k with _ | _ | _ | _ | _ | k5
      · exact ⟨fun _ => rfl, fun h => nomatch h⟩
      · exact ⟨fun _ => rfl, fun h => nomatch h⟩
      · exact ⟨fun _ => rfl, fun h => nomatch h⟩
      · exact ⟨fun _ => rfl, fun h => nomatch h⟩
      · exact ⟨fun _ => rfl, fun h => nomatch h⟩
      · refine ⟨fun h => (nomatch h), fun _ => ⟨?_, ?_⟩⟩
        · show (upsert_location_pg _ b l).moveLog = _
          rw [upsert_moveLog]
          rfl
        · show (upsert_location_pg _ b l).boxes = _
          rw [upsert_boxes, upsert_boxes]
          rfl
  · intro db b l o r now fa
    rcases fa with _ | k
    · refine ⟨fun h => ?_, fun _ => ⟨rfl, rfl⟩⟩
      simp [assignInitialFx_none] at h
    · rcases k with _ | _ | _ | _ | k4
      · exact ⟨fun _ => rfl, fun h => nomatch h⟩
      · exact ⟨fun _ => rfl, fun h => nomatch h⟩
      · exact ⟨fun _ => rfl, fun h => nomatch h⟩
      · exact ⟨fun _ => rfl, fun h => nomatch h⟩
      · exact ⟨fun h => (nomatch h), fun _ => ⟨rfl, rfl⟩⟩

/-- Witness for C2 at a concrete input: a fault at the `UPDATE` statement
leaves the stored state unchanged. -/
theorem c2_atomic_writes_witness :
    (assignInitialFx ⟨[mkBox "W-1" (some "A")], [], 0⟩ "W-1" "B" "o" "INITIAL" "t" (some 2)).2
      = ⟨[mkBox "W-1" (some "A")], [], 0⟩ :=
  (c2_atomic_writes.2.1 ⟨[mkBox "W-1" (some "A")], [], 0⟩ "W-1" "B" "o" "INITIAL" "t"
    (some 2)).1 (by decide)

/-! ### C4 — bulk move collects per-item failures -/

theorem bulkStep_tuple (toLoc op r now : String) (plan : String → Option Nat)
    (d : LocalDB) (m : Nat) (f : List (String × String)) (b : String) :
    bulkStep toLoc op r now plan (d, m, f) b =
      match (if locTruthy (rawReadLoc d b) then
          moveLocationFx d b toLoc op r now (plan b)
        else assignInitialFx d b toLoc op "INITIAL" now (plan b)) with
      | (some e, db2) => (db2, m, f ++ [(b, e)])
      | (none, db2) => (db2, m + 1, f) := rfl

theorem bulk_fold_spec (toLoc op r now : String) (plan : String → Option Nat) :
    ∀ (xs : List String) (d : LocalDB) (m : Nat) (f : List (String × String)),
      ((xs.foldl (bulkStep toLoc op r now plan) (d, m, f)).2.1
          + (xs.foldl (bulkStep toLoc op r now plan) (d, m, f)).2.2.length
        = m + f.length + xs.length)
      ∧ (∀ p ∈ (xs.foldl (bulkStep toLoc op r now plan) (d, m, f)).2.2,
          p.1 ∈ xs ∨ p ∈ f) := by
  intro xs
  induction xs with
  | nil =>
    intro d m f
    exact ⟨by simp, fun p hp => Or.inr hp⟩
  | cons b bs ih =>
    intro d m f
    rcases hres : (if locTruthy (rawReadLoc d b) then
        moveLocationFx d b toLoc op r now (plan b)
      else assignInitialFx d b toLoc op "INITIAL" now (plan b)) with ⟨eo, d2⟩
    cases eo with
    | none =>
      have hst : bulkStep toLoc op r now plan (d, m, f) b = (d2, m + 1, f) := by
        rw [bulkStep_tuple, hres]
      rw [List.foldl_cons, hst]
      rcases ih d2 (m + 1) f with ⟨hc, hf⟩
      refine ⟨by rw [hc]; simp; omega, fun p hp => ?_⟩
      rcases hf p hp with h | h
      · exact Or.inl (List.mem_cons_of_mem b h)
      · exact Or.inr h
    | some e =>
      have hst : bulkStep toLoc op r now plan (d, m, f) b = (d2, m, f ++ [(b, e)]) := by
        rw [bulkStep_tuple, hres]
      rw [List.foldl_cons, hst]
      rcases ih d2 m (f ++ [(b, e)]) with ⟨hc, hf⟩
      refine ⟨by rw [hc]; simp; omega, fun p hp => ?_⟩
      rcases hf p hp with h | h
      · exact Or.inl (List.mem_cons_of_mem b h)
      · rcases List.mem_append.mp h with h2 | h2
        · exact Or.inr h2
        · have hpe : p = (b, e) := by simpa using h2
          exact Or.inl (by rw [hpe]; exact List.mem_cons_self b bs)

/-- C4: `move_bulk` never aborts on a per-item failure: for any non-empty
id list and any storage-fault plan it returns a success count and a
failure list with `moved + fails.length = ids.length`, each failure tagged
with its box id; and in the spec's concrete scenario — `["X-01","X-02"]`
where only `X-01` has a (located) record, `to_loc = ""` supplied, and the
backend rejecting each empty-location ledger insert (fault at the insert
statement) — both entries land in the failure list, `moved = 0`, and the
store is unchanged. -/
theorem c4_bulk_partial_failure :
    (∀ (db : LocalDB) (ids : List String) (toLoc op r now : String)
        (plan : String → Option Nat),
      ids ≠ [] →
      ∃ d2 moved fails,
        move_bulk db ids toLoc op r now plan = Except.ok (d2, moved, fails)
        ∧ moved + fails.length = ids.length
        ∧ ∀ p ∈ fails, p.1 ∈ ids) ∧
    (move_bulk ⟨[mkBox "X-01" (some "D1")], [], 0⟩ ["X-01", "X-02"] "" "op" "MOVE" "t1"
        (fun _ => some 1)
      = Except.ok (⟨[mkBox "X-01" (some "D1")], [], 0⟩, 0,
          [("X-01", "fault insert"), ("X-02", "fault insert")])) := by
  constructor
  · intro db ids toLoc op r now plan hne
    have hemp : ids.isEmpty = false := by
      cases ids with
      | nil => exact absurd rfl hne
      | cons a t => rfl
    refine ⟨(ids.foldl (bulkStep toLoc op r now plan) (db, 0, [])).1,
      (ids.foldl (bulkStep toLoc op r now plan) (db, 0, [])).2.1,
      (ids.foldl (bulkStep toLoc op r now plan) (db, 0, [])).2.2, ?_, ?_, ?_⟩
    · rw [move_bulk, hemp]
      rfl
    · have h := (bulk_fold_spec toLoc op r now plan ids db 0 []).1
      simpa using h
    · intro p hp
      have h := (bulk_fold_spec toLoc op r now plan ids db 0 []).2 p hp
      rcases h with h | h
      · exact h
      · cases h
  · rfl

/-- Witness for C4 at a concrete input. -/
theorem c4_bulk_partial_failure_witness :
    ∃ d2 moved fails,
      move_bulk ⟨[mkBox "Y-1" (some "A")], [], 0⟩ ["Y-1"] "L" "o" "MOVE" "t"
          (fun _ => none)
        = Except.ok (d2, moved, fails)
      ∧ moved + fails.length = (["Y-1"] : List String).length
      ∧ ∀ p ∈ fails, p.1 ∈ (["Y-1"] : List String) :=
  c4_bulk_partial_failure.1 ⟨[mkBox "Y-1" (some "A")], [], 0⟩ ["Y-1"] "L" "o" "MOVE" "t"
    (fun _ => none) (by decide)

/-! ### Range machinery (shared by the range-resolver claims) -/

/-- The box ids selected by the range query, in table (rowid) order. -/
def rangeMatched (db : LocalDB) (boxid : String) (start stop : Int) : List String :=
  (db.boxidLog.filter (fun rr => rangePred (prefix_from_boxid boxid) start stop rr.boxID)).map
    (fun rr => rr.boxID)

theorem rangeStep_tuple (toLoc op r now : String) (d : LocalDB) (m : Nat) (b : String) :
    rangeStep toLoc op r now (d, m) b =
      ((if locTruthy (rawReadLoc d b) then
          (moveLocationFx d b toLoc op r now none).2
        else (assignInitialFx d b toLoc op "INITIAL" now none).2), m + 1) := rfl

theorem move_by_range_eq (db : LocalDB) (boxid : String) (start stop : Int)
    (toLoc op r now : String) :
    move_by_range db boxid start stop toLoc op r now =
      if (List.insertionSort (fun a b : String => strLt b a = false)
          (rangeMatched db boxid start stop)).isEmpty
      then Except.error "No boxes in range"
      else Except.ok ((List.insertionSort (fun a b : String => strLt b a = false)
          (rangeMatched db boxid start stop)).foldl (rangeStep toLoc op r now) (db, 0)) := rfl

theorem rangeStep_moveLog (toLoc op r now : String) (d : LocalDB) (m : Nat) (b : String) :
    ∃ row : MoveRow, row.boxID = b
      ∧ (rangeStep toLoc op r now (d, m) b).1.boxMoveLog = d.boxMoveLog ++ [row] := by
  rw [rangeStep_tuple]
  by_cases h : locTruthy (rawReadLoc d b) = true
  · rw [if_pos h]
    exact ⟨⟨d.nextMoveId, b, localReadLoc d b, toLoc, now, op, some r⟩, rfl, rfl⟩
  · rw [if_neg h]
    exact ⟨⟨d.nextMoveId, b, localReadLoc d b, toLoc, now, op, some "INITIAL"⟩, rfl, rfl⟩

theorem range_fold_spec (toLoc op r now : String) :
    ∀ (xs : List String) (d : LocalDB) (m : Nat),
      ((xs.foldl (rangeStep toLoc op r now) (d, m)).2 = m + xs.length)
      ∧ ∃ rows : List MoveRow,
          (xs.foldl (rangeStep toLoc op r now) (d, m)).1.boxMoveLog
            = d.boxMoveLog ++ rows
          ∧ rows.map (fun mr => mr.boxID) = xs := by
  intro xs
  induction xs with
  | nil =>
    intro d m
    exact ⟨by simp, [], by simp, rfl⟩
  | cons b bs ih =>
    intro d m
    rcases rangeStep_moveLog toLoc op r now d m b with ⟨row, hrow, hlog1⟩
    have hsnd : (rangeStep toLoc op r now (d, m) b).2 = m + 1 := by
      rw [rangeStep_tuple]
    have hstep : rangeStep toLoc op r now (d, m) b
        = ((rangeStep toLoc op r now (d, m) b).1, m + 1) := by
      rw [← hsnd]
    rcases ih (rangeStep toLoc op r now (d, m) b).1 (m + 1) with ⟨hc, rows, hlog2, hmap⟩
    rw [List.foldl_cons, hstep]
    refine ⟨by rw [hc]; simp; omega, row :: rows, ?_, by simp [hmap, hrow]⟩
    rw [hlog2, hlog1]
    simp

theorem move_by_range_error (db : LocalDB) (boxid : String) (start stop : Int)
    (toLoc op r now : String) (h : rangeMatched db boxid start stop = []) :
    move_by_range db boxid start stop toLoc op r now = Except.error "No boxes in range" := by
  rw [move_by_range_eq, h]
  rfl

theorem move_by_range_ok_exists (db : LocalDB) (boxid : String) (start stop : Int)
    (toLoc op r now : String) (h : rangeMatched db boxid start stop ≠ []) :
    ∃ d2, move_by_range db boxid start stop toLoc op r now
        = Except.ok (d2, (rangeMatched db boxid start stop).length)
      ∧ ∃ rows : List MoveRow, d2.boxMoveLog = db.boxMoveLog ++ rows
        ∧ rows.map (fun mr => mr.boxID)
          = List.insertionSort (fun a b : String => strLt b a = false)
              (rangeMatched db boxid start stop) := by
  have hlen : (List.insertionSort (fun a b : String => strLt b a = false)
      (rangeMatched db boxid start stop)).length
      = (rangeMatched db boxid start stop).length :=
    (List.perm_insertionSort _ _).length_eq
  have hne : List.insertionSort (fun a b : String => strLt b a = false)
      (rangeMatched db boxid start stop) ≠ [] := by
    intro hs
    apply h
    have h0 := hlen
    rw [hs] at h0
    exact (List.eq_nil_of_length_eq_zero h0.symm)
  have hemp : (List.insertionSort (fun a b : String => strLt b a = false)
      (rangeMatched db boxid start stop)).isEmpty = false := by
    cases hs : List.insertionSort (fun a b : String => strLt b a = false)
        (rangeMatched db boxid start stop) with
    | nil => exact absurd hs hne
    | cons x xs => rfl
  rcases range_fold_spec toLoc op r now
      (List.insertionSort (fun a b : String => strLt b a = false) (rangeMatched db boxid start stop))
      db 0 with ⟨hc, rows, hlog, hmap⟩
  refine ⟨((List.insertionSort (fun a b : String => strLt b a = false)
      (rangeMatched db boxid start stop)).foldl (rangeStep toLoc op r now) (db, 0)).1,
    ?_, rows, hlog, hmap⟩
  rw [move_by_range_eq, hemp]
  have hn : ((List.insertionSort (fun a b : String => strLt b a = false)
      (rangeMatched db boxid start stop)).foldl (rangeStep toLoc op r now) (db, 0)).2
      = (rangeMatched db boxid start stop).length := by
    rw [hc, Nat.zero_add, hlen]
  calc (if (false : Bool) = true then (Except.error "No boxes in range" :
          Except String (LocalDB × Nat))
        else Except.ok ((List.insertionSort (fun a b : String => strLt b a = false)
          (rangeMatched db boxid start stop)).foldl (rangeStep toLoc op r now) (db, 0)))
      = Except.ok ((List.insertionSort (fun a b : String => strLt b a = false)
          (rangeMatched db boxid start stop)).foldl (rangeStep toLoc op r now) (db, 0)) := rfl
    _ = _ := by rw [show ((List.insertionSort (fun a b : String => strLt b a = false)
          (rangeMatched db boxid start stop)).foldl (rangeStep toLoc op r now) (db, 0))
        = (((List.insertionSort (fun a b : String => strLt b a = false)
          (rangeMatched db boxid start stop)).foldl (rangeStep toLoc op r now) (db, 0)).1,
          ((List.insertionSort (fun a b : String => strLt b a = false)
          (rangeMatched db boxid start stop)).foldl (rangeStep toLoc op r now) (db, 0)).2)
        from rfl, hn]

theorem move_by_range_ok_inv (db : LocalDB) (boxid : String) (start stop : Int)
    (toLoc op r now : String) (d2 : LocalDB) (n : Nat)
    (h : move_by_range db boxid start stop toLoc op r now = Except.ok (d2, n)) :
    ∃ rows : List MoveRow, d2.boxMoveLog = db.boxMoveLog ++ rows
      ∧ rows.map (fun mr => mr.boxID)
        = List.insertionSort (fun a b : String => strLt b a = false)
            (rangeMatched db boxid start stop) := by
  rw [move_by_range_eq] at h
  by_cases he : (List.insertionSort (fun a b : String => strLt b a = false)
      (rangeMatched db boxid start stop)).isEmpty = true
  · rw [if_pos he] at h
    exact absurd h (by simp)
  · rw [if_neg he] at h
    have h2 := Except.ok.inj h
    rcases range_fold_spec toLoc op r now
        (List.insertionSort (fun a b : String => strLt b a = false) (rangeMatched db boxid start stop))
        db 0 with ⟨hc, rows, hlog, hmap⟩
    have hd2 : d2 = ((List.insertionSort (fun a b : String => strLt b a = false)
        (rangeMatched db boxid start stop)).foldl (rangeStep toLoc op r now) (db, 0)).1 := by
      rw [h2]
    exact ⟨rows, by rw [hd2]; exact hlog, hmap⟩

/-! ### C3 — range resolve -/

/-- The spec's ten-box scenario `A-0001..A-0010`, none yet located. -/
def db10 : LocalDB :=
  ⟨[mkBox "A-0001" none, mkBox "A-0002" none, mkBox "A-0003" none, mkBox "A-0004" none,
    mkBox "A-0005" none, mkBox "A-0006" none, mkBox "A-0007" none, mkBox "A-0008" none,
    mkBox "A-0009" none, mkBox "A-0010" none], [], 0⟩

/-- C3 as stated is false in its universal part: a box whose trailing 4
characters are not numeric ("A-QQQQ", which `CAST` evaluates to 0) is
matched and moved by a range `[0, 5]`, although the claim says only boxes
with a numeric trailing serial in range are moved (and that a no-match
range yields the distinct 404). -/
theorem c3_counterexample :
    Except.map (fun p : LocalDB × Nat => (p.2, get_current_location p.1 "A-QQQQ"))
        (move_by_range ⟨[mkBox "A-QQQQ" none], [], 0⟩ "A-0001" 0 5 "L1" "op" "MOVE" "t1")
      = Except.ok (1, some "L1")
    ∧ (last4 "A-QQQQ").data.all (fun c => c.isDigit) = false := by
  exact ⟨rfl, by decide⟩

/-- C3 (amended): `move_by_range` selects exactly the stored boxes whose
`BoxID` matches `prefix_of(id)` as a SQLite `LIKE` pattern and whose last 4
characters, read with SQLite `CAST` semantics (longest digit prefix, 0 when
non-numeric), fall within `[start, end]`; it scans them in ascending
`BoxID` order appending one history row each (reason `"INITIAL"` via
`assign_initial` when the box has no truthy location, else `move`), returns
the matched count, and signals the distinct no-matches 404 exactly when no
stored box matches. The spec's concrete `A-0001..A-0010`, `start=3, end=5`
scenario moves exactly `A-0003, A-0004, A-0005` with `moved = 3`. -/
theorem c3_amended_range_move :
    (∀ (db : LocalDB) (boxid : String) (start stop : Int) (toLoc op r now : String),
      (rangeMatched db boxid start stop = [] →
        move_by_range db boxid start stop toLoc op r now
          = Except.error "No boxes in range")
      ∧ (rangeMatched db boxid start stop ≠ [] →
        ∃ d2, move_by_range db boxid start stop toLoc op r now
            = Except.ok (d2, (rangeMatched db boxid start stop).length)
          ∧ ∃ rows : List MoveRow, d2.boxMoveLog = db.boxMoveLog ++ rows
            ∧ rows.map (fun mr => mr.boxID)
              = List.insertionSort (fun a b : String => strLt b a = false)
                  (rangeMatched db boxid start stop))) ∧
    (Except.map (fun p : LocalDB × Nat =>
        (p.2, p.1.boxidLog.filterMap (fun rr => rr.location.map (fun l => (rr.boxID, l))),
          p.1.boxMoveLog.map (fun mr => (mr.boxID, mr.fromLoc, mr.reason))))
        (move_by_range db10 "A-0001" 3 5 "L2" "op" "MOVE" "t1")
      = Except.ok (3, [("A-0003", "L2"), ("A-0004", "L2"), ("A-0005", "L2")],
          [("A-0003", none, some "INITIAL"), ("A-0004", none, some "INITIAL"),
           ("A-0005", none, some "INITIAL")])) := by
  refine ⟨fun db boxid start stop toLoc op r now =>
    ⟨move_by_range_error db boxid start stop toLoc op r now,
     move_by_range_ok_exists db boxid start stop toLoc op r now⟩, by rfl⟩

/-- Witness for C3 (amended) at a concrete input. -/
theorem c3_amended_range_move_witness :
    ∃ d2, move_by_range ⟨[mkBox "A-0003" none], [], 0⟩ "A-0001" 3 5 "L2" "op" "MOVE" "t1"
        = Except.ok (d2, (rangeMatched ⟨[mkBox "A-0003" none], [], 0⟩ "A-0001" 3 5).length)
      ∧ ∃ rows : List MoveRow,
          d2.boxMoveLog = (⟨[mkBox "A-0003" none], [], 0⟩ : LocalDB).boxMoveLog ++ rows
          ∧ rows.map (fun mr => mr.boxID)
            = List.insertionSort (fun a b : String => strLt b a = false)
                (rangeMatched ⟨[mkBox "A-0003" none], [], 0⟩ "A-0001" 3 5) :=
  (c3_amended_range_move.1 ⟨[mkBox "A-0003" none], [], 0⟩ "A-0001" 3 5 "L2" "op" "MOVE"
    "t1").2 (by decide)

/-! ### C7 — trailing serial parsing in range matches -/

/-- C7 as stated is false: an id whose trailing 4 characters are not
numeric ("B-ABCD") is not excluded "regardless of the bounds" — SQLite
`CAST` evaluates it to 0, so with `[start, end] = [0, 0]` the box is
matched and moved. -/
theorem c7_counterexample :
    Except.map (fun p : LocalDB × Nat => (p.2, get_current_location p.1 "B-ABCD"))
        (move_by_range ⟨[mkBox "B-ABCD" none], [], 0⟩ "B-0009" 0 0 "L9" "op" "MOVE" "t1")
      = Except.ok (1, some "L9")
    ∧ (last4 "B-ABCD").data.all (fun c => c.isDigit) = false := by
  exact ⟨rfl, by decide⟩

/-- C7 (amended): the range comparison parses the last 4 characters with
SQLite `CAST` semantics — the longest leading digit run, 0 when there is
none. An id whose trailing characters carry no digits (cast value 0) is
silently excluded, never an error, whenever `0 ∉ [start, end]` (first
conjunct: a successful range move appends no history row for it); but any
stored box whose id satisfies the LIKE-and-`CAST`-range predicate — numeric
trailing serial or not — is matched and moved (second conjunct). -/
theorem c7_amended_cast_exclusion :
    (∀ (db : LocalDB) (boxid id : String) (start stop : Int) (toLoc op r now : String)
        (d2 : LocalDB) (n : Nat),
      sqliteCastInt (last4 id) = 0 → (0 < start ∨ stop < 0) →
      move_by_range db boxid start stop toLoc op r now = Except.ok (d2, n) →
      ∃ rows : List MoveRow, d2.boxMoveLog = db.boxMoveLog ++ rows
        ∧ id ∉ rows.map (fun mr => mr.boxID)) ∧
    (∀ (db : LocalDB) (boxid : String) (start stop : Int) (toLoc op r now : String)
        (rr : BoxRow), rr ∈ db.boxidLog →
      rangePred (prefix_from_boxid boxid) start stop rr.boxID = true →
      ∃ d2 n, move_by_range db boxid start stop toLoc op r now = Except.ok (d2, n)
        ∧ ∃ rows : List MoveRow, d2.boxMoveLog = db.boxMoveLog ++ rows
          ∧ rr.boxID ∈ rows.map (fun mr => mr.boxID)) := by
  constructor
  · intro db boxid id start stop toLoc op r now d2 n hcast hb hok
    rcases move_by_range_ok_inv db boxid start stop toLoc op r now d2 n hok with
      ⟨rows, hlog, hmap⟩
    refine ⟨rows, hlog, ?_⟩
    rw [hmap]
    intro hmem
    have hmem2 : id ∈ rangeMatched db boxid start stop :=
      (List.mem_insertionSort _).mp hmem
    rcases List.mem_map.mp hmem2 with ⟨rr, hrr, hrid⟩
    have hpred := (List.mem_filter.mp hrr).2
    rw [hrid] at hpred
    rw [rangePred, hcast] at hpred
    rcases hb with h | h
    · have hdec : decide (start ≤ (0 : Int)) = false := by
        simp only [decide_eq_false_iff_not]
        omega
      rw [hdec] at hpred
      simp at hpred
    · have hdec : decide ((0 : Int) ≤ stop) = false := by
        simp only [decide_eq_false_iff_not]
        omega
      rw [hdec] at hpred
      simp at hpred
  · intro db boxid start stop toLoc op r now rr hin hpred
    have hmem : rr.boxID ∈ rangeMatched db boxid start stop :=
      List.mem_map.mpr ⟨rr, List.mem_filter.mpr ⟨hin, hpred⟩, rfl⟩
    have hne : rangeMatched db boxid start stop ≠ [] := by
      intro h0
      rw [h0] at hmem
      cases hmem
    rcases move_by_range_ok_exists db boxid start stop toLoc op r now hne with
      ⟨d2, hok, rows, hlog, hmap⟩
    refine ⟨d2, _, hok, rows, hlog, ?_⟩
    rw [hmap]
    exact (List.mem_insertionSort _).mpr hmem

/-- Witness for C7 (amended) at a concrete input: a box with a fully
non-numeric trailing serial is moved when the range contains 0. -/
theorem c7_amended_cast_exclusion_witness :
    ∃ d2 n, move_by_range ⟨[mkBox "C-XYZW" none], [], 0⟩ "C-0001" 0 0 "L" "o" "r" "t"
        = Except.ok (d2, n)
      ∧ ∃ rows : List MoveRow,
          d2.boxMoveLog = (⟨[mkBox "C-XYZW" none], [], 0⟩ : LocalDB).boxMoveLog ++ rows
          ∧ (mkBox "C-XYZW" none).boxID ∈ rows.map (fun mr => mr.boxID) :=
  c7_amended_cast_exclusion.2 ⟨[mkBox "C-XYZW" none], [], 0⟩ "C-0001" 0 0 "L" "o" "r" "t"
    (mkBox "C-XYZW" none) (List.mem_cons_self _ _) (by decide)

/-! ### LIKE lemmas and C8 — search -/

theorem nil_mem_tails (s : List Char) : [] ∈ s.tails := by
  induction s with
  | nil => simp
  | cons c cs ih => simp [List.tails_cons, ih]

theorem matchLike_percent_all (s : List Char) : matchLike ['%'] s = true := by
  show (if '%' = '%' then s.tails.any (fun t => matchLike [] t) else _) = true
  rw [if_pos rfl, List.any_eq_true]
  exact ⟨[], nil_mem_tails s, rfl⟩

theorem matchLike_lit_cons (c : Char) (p : List Char) (d : Char) (s2 : List Char)
    (h1 : ¬ c = '%') (h2 : ¬ c = '_') :
    matchLike (c :: p) (d :: s2) = ((foldChar c == foldChar d) && matchLike p s2) := by
  simp only [matchLike, if_neg h1, if_neg h2]

theorem matchLike_lit_nil (c : Char) (p : List Char) (h1 : ¬ c = '%') (h2 : ¬ c = '_') :
    matchLike (c :: p) [] = false := by
  simp only [matchLike, if_neg h1, if_neg h2]

theorem matchLike_head_percent (s : List Char) (hs : s ≠ []) :
    matchLike (s.take 1 ++ ['%']) s = true := by
  cases s with
  | nil => exact absurd rfl hs
  | cons c cs =>
    show matchLike (c :: ['%']) (c :: cs) = true
    by_cases h1 : c = '%'
    · subst h1
      show (if '%' = '%' then (('%' :: cs).tails.any (fun t => matchLike ['%'] t))
          else _) = true
      rw [if_pos rfl, List.any_eq_true]
      exact ⟨'%' :: cs, by simp [List.tails_cons], matchLike_percent_all _⟩
    · by_cases h2 : c = '_'
      · subst h2
        show (if '_' = '%' then _ else if '_' = '_' then
            (match ('_' :: cs : List Char) with
             | [] => false
             | _ :: s2 => matchLike ['%'] s2) else _) = true
        rw [if_neg (by decide), if_pos rfl]
        exact matchLike_percent_all cs
      · rw [matchLike_lit_cons c ['%'] c cs h1 h2, beq_self_eq_true,
          matchLike_percent_all, Bool.and_self]

theorem matchLike_lit_percent : ∀ (lit s : List Char),
    (∀ c ∈ lit, ¬ c = '%' ∧ ¬ c = '_') →
    (matchLike (lit ++ ['%']) s = true ↔
      lit.length ≤ s.length ∧ (s.take lit.length).map foldChar = lit.map foldChar) := by
  intro lit
  induction lit with
  | nil =>
    intro s h
    simp only [List.nil_append, List.length_nil, List.take_zero, List.map_nil]
    exact ⟨fun _ => ⟨Nat.zero_le _, trivial⟩, fun _ => matchLike_percent_all s⟩
  | cons c cs ih =>
    intro s h
    have hc := h c (List.mem_cons_self c cs)
    rw [List.cons_append]
    cases s with
    | nil =>
      rw [matchLike_lit_nil c (cs ++ ['%']) hc.1 hc.2]
      simp
    | cons d s2 =>
      rw [matchLike_lit_cons c (cs ++ ['%']) d s2 hc.1 hc.2]
      rw [Bool.and_eq_true, beq_iff_eq]
      rw [ih s2 (fun x hx => h x (List.mem_cons_of_mem c hx))]
      simp only [List.length_cons, List.take_succ_cons, List.map_cons, List.cons.injEq,
        Nat.succ_le_succ_iff]
      constructor
      · intro hh
        exact ⟨hh.2.1, hh.1.symm, hh.2.2⟩
      · intro hh
        exact ⟨hh.2.1.symm, hh.1, hh.2.2⟩

theorem mem_enumFrom_of_mem {α : Type} :
    ∀ (l : List α) (n : Nat) (a : α), a ∈ l → ∃ i, (i, a) ∈ l.enumFrom n := by
  intro l
  induction l with
  | nil => intro n a h; cases h
  | cons b t ih =>
    intro n a h
    rcases List.mem_cons.mp h with h | h
    · subst h
      exact ⟨n, by simp [List.enumFrom]⟩
    · rcases ih (n + 1) a h with ⟨i, hi⟩
      exact ⟨i, by simp [List.enumFrom]; right; exact hi⟩

theorem boxes_search_mem_pred (db : LocalDB) (bidF locF : Option String) (lim : Nat)
    (rr : BoxRow) (h : rr ∈ boxes_search db bidF locF lim) :
    searchPred bidF locF rr = true := by
  rcases List.mem_map.mp h with ⟨p, hp, hpe⟩
  have hp2 : p ∈ List.insertionSort searchOrder
      ((db.boxidLog.enum).filter (fun q => searchPred bidF locF q.2)) :=
    List.take_subset _ _ hp
  have hp3 : p ∈ (db.boxidLog.enum).filter (fun q => searchPred bidF locF q.2) :=
    (List.mem_insertionSort _).mp hp2
  have := (List.mem_filter.mp hp3).2
  rw [hpe] at this
  exact this

/-- Two boxes with identical `UpdatedAt`: `B-1` inserted first (rowid 0),
`A-1` second (rowid 1); their locations differ only in letter case. -/
def dbC8 : LocalDB :=
  ⟨[⟨"B-1", none, none, none, some "DOCK1", none, some "2024-01-01 00:00:00"⟩,
    ⟨"A-1", none, none, none, some "dock2", none, some "2024-01-01 00:00:00"⟩], [], 0⟩

/-- C8 as stated is false: with two rows tied on the update key, the search
returns `A-1` before `B-1` — ties are broken by rowid (insertion order)
descending, not by `BoxID` descending, which would give `B-1` first; and
`location_prefix = "DOCK"` also returns the box whose location is `"dock2"`
(SQLite `LIKE` is ASCII-case-insensitive), which does not start with
`"DOCK"`. -/
theorem c8_counterexample :
    (boxes_search dbC8 none none 10).map (fun rr => rr.boxID) = ["A-1", "B-1"]
    ∧ searchKeyOf ⟨"B-1", none, none, none, some "DOCK1", none, some "2024-01-01 00:00:00"⟩
      = searchKeyOf ⟨"A-1", none, none, none, some "dock2", none, some "2024-01-01 00:00:00"⟩
    ∧ (["A-1", "B-1"] : List String) ≠ ["B-1", "A-1"]
    ∧ (boxes_search dbC8 none (some "DOCK") 10).map (fun rr => (rr.boxID, rr.location))
      = [("A-1", some "dock2"), ("B-1", some "DOCK1")]
    ∧ "dock2".data.take 4 ≠ "DOCK".data := by
  exact ⟨by rfl, by rfl, by decide, by rfl, by decide⟩

/-- C8 (amended): `boxes_search` returns only rows passing the SQL filter —
in particular, with `location_prefix = "DOCK"` every returned box has a
non-null location whose first 4 characters equal `"DOCK"` up to ASCII case
(SQLite `LIKE` matching); results are ordered by `COALESCE(UpdatedAt,
CreatedAt)` descending with ties broken by rowid (insertion order)
descending — not `BoxID` — and capped at `limit`; and a stored box whose
non-empty location is `L` is always returned by a search with
`location_prefix = L[:1]` provided the filtered row count fits the limit. -/
theorem c8_amended_search :
    (∀ (db : LocalDB) (bidF locF : Option String) (lim : Nat) (rr : BoxRow),
      rr ∈ boxes_search db bidF locF lim → searchPred bidF locF rr = true) ∧
    (∀ (db : LocalDB) (lim : Nat) (rr : BoxRow),
      rr ∈ boxes_search db none (some "DOCK") lim →
      ∃ l, rr.location = some l ∧ 4 ≤ l.data.length
        ∧ (l.data.take 4).map foldChar = "DOCK".data.map foldChar) ∧
    (∀ (db : LocalDB) (bidF locF : Option String) (lim : Nat),
      List.Sorted searchOrder (boxes_search_rows db bidF locF lim)
      ∧ (boxes_search db bidF locF lim).length ≤ lim) ∧
    (∀ (db : LocalDB) (lim : Nat) (rr : BoxRow) (L : String),
      rr ∈ db.boxidLog → rr.location = some L → L ≠ "" →
      ((db.boxidLog.enum).filter
          (fun p => searchPred none (some (String.mk (L.data.take 1))) p.2)).length ≤ lim →
      rr ∈ boxes_search db none (some (String.mk (L.data.take 1))) lim) := by
  refine ⟨boxes_search_mem_pred, ?_, ?_, ?_⟩
  · intro db lim rr h
    have hp := boxes_search_mem_pred db none (some "DOCK") lim rr h
    rw [searchPred] at hp
    have hact : activeF (some "DOCK") = some "DOCK" := rfl
    rw [hact] at hp
    cases hloc : rr.location with
    | none =>
      rw [hloc] at hp
      simp at hp
    | some l =>
      rw [hloc] at hp
      simp only [Bool.true_and] at hp
      have := (matchLike_lit_percent "DOCK".data l.data (by decide)).mp hp
      exact ⟨l, rfl, this.1, this.2⟩
  · intro db bidF locF lim
    constructor
    · exact List.Pairwise.sublist (List.take_sublist _ _)
        (List.sorted_insertionSort searchOrder _)
    · rw [boxes_search, List.length_map, boxes_search_rows]
      exact List.length_take_le _ _
  · intro db lim rr L hin hL hne hcount
    have hd : L.data ≠ [] := by
      intro h0
      apply hne
      cases L with
      | mk d =>
        have h1 : d = [] := h0
        subst h1
        rfl
    have htake1 : String.mk (L.data.take 1) ≠ "" := by
      intro h0
      apply hd
      have h1 : L.data.take 1 = [] := congrArg String.data h0
      cases hdata : L.data with
      | nil => rfl
      | cons c cs =>
        rw [hdata] at h1
        simp at h1
    have hact : activeF (some (String.mk (L.data.take 1)))
        = some (String.mk (L.data.take 1)) := by
      rw [activeF, if_neg htake1]
    have hpred : searchPred none (some (String.mk (L.data.take 1))) rr = true := by
      rw [searchPred, hact, hL]
      simp only [Bool.true_and]
      show matchLike ((String.mk (L.data.take 1)).data ++ ['%']) L.data = true
      exact matchLike_head_percent L.data hd
    rcases mem_enumFrom_of_mem db.boxidLog 0 rr hin with ⟨i, hi⟩
    have hmemf : (i, rr) ∈ (db.boxidLog.enum).filter
        (fun p => searchPred none (some (String.mk (L.data.take 1))) p.2) :=
      List.mem_filter.mpr ⟨hi, hpred⟩
    have hmems : (i, rr) ∈ List.insertionSort searchOrder
        ((db.boxidLog.enum).filter
          (fun p => searchPred none (some (String.mk (L.data.take 1))) p.2)) :=
      (List.mem_insertionSort _).mpr hmemf
    have hlen : (List.insertionSort searchOrder
        ((db.boxidLog.enum).filter
          (fun p => searchPred none (some (String.mk (L.data.take 1))) p.2))).length
        = ((db.boxidLog.enum).filter
          (fun p => searchPred none (some (String.mk (L.data.take 1))) p.2)).length :=
      (List.perm_insertionSort _ _).length_eq
    have htake : (List.insertionSort searchOrder
        ((db.boxidLog.enum).filter
          (fun p => searchPred none (some (String.mk (L.data.take 1))) p.2))).take lim
        = List.insertionSort searchOrder
          ((db.boxidLog.enum).filter
            (fun p => searchPred none (some (String.mk (L.data.take 1))) p.2)) := by
      apply List.take_of_length_le
      rw [hlen]
      exact hcount
    rw [boxes_search, boxes_search_rows, htake]
    exact List.mem_map.mpr ⟨(i, rr), hmems, rfl⟩

/-- Witness for C8 (amended) at a concrete input. -/
theorem c8_amended_search_witness :
    (⟨"B-1", none, none, none, some "DOCK1", none, some "2024-01-01 00:00:00"⟩ : BoxRow)
      ∈ boxes_search dbC8 none
        (some (String.mk (("DOCK1" : String).data.take 1))) 10 :=
  c8_amended_search.2.2.2 dbC8 10
    ⟨"B-1", none, none, none, some "DOCK1", none, some "2024-01-01 00:00:00"⟩ "DOCK1"
    (by decide) rfl (by decide) (by decide)
